import Mathlib

/-!
A shallow embedding of the asciichat relay server core
(asciichat-server/main.go) and proofs about its registry, broadcast
and session-loop behaviour.

Modelling conventions:
- Go `*Client` pointers are client identities, modelled as `Nat`.
- The Go map `clients map[*Client]bool` is a duplicate-free `List Nat`
  (a Go map is a set of keys; a nodup list models it, with the nodup
  fact carried as a hypothesis and preserved by every operation).
- A Go buffered channel `chan []byte` of capacity 16 is a `ChanState`:
  a buffer list plus a closed flag.  `close` on a closed channel and a
  (select-)send on a closed channel panic in Go, so the operations that
  can panic return `Option`, `none` meaning a run-time panic.
- Message payloads `[]byte` are modelled as `String` (opaque payloads).
-/

namespace AsciiChat

/-- `const maxClients = 2` in main.go. -/
def maxClients : Nat := 2

/-- Capacity of each client's send channel: `make(chan []byte, 16)` in
`Server.handleWS`. -/
def chanCap : Nat := 16

/-- State of one Go buffered channel (`Client.send`): the buffered
messages in FIFO order and whether the channel has been closed. -/
structure ChanState where
  buf : List String
  isClosed : Bool
deriving DecidableEq, Repr

/-- A freshly made channel: `make(chan []byte, 16)` — empty and open. -/
def initChan : ChanState := { buf := [], isClosed := false }

/-- The server state (`Server` plus the heap of client channels):
the set of admitted clients and every client's send-channel state. -/
structure ServerState where
  clients : List Nat
  chans : Nat → ChanState

/-- `NewServer()`: empty registry; no channel has been created yet, so
every identity maps to a fresh open channel by default. -/
def initialState : ServerState := { clients := [], chans := fun _ => initChan }

/-- Replace one client's channel state (a Go write through the pointer
held in the `Client` struct). -/
def setChan (s : ServerState) (c : Nat) (ch : ChanState) : ServerState :=
  { s with chans := Function.update s.chans c ch }

/-- `Server.add`: under the lock, refuse when `len(s.clients) >= maxClients`,
otherwise insert the client key into the map and report success. -/
def add (s : ServerState) (c : Nat) : ServerState × Bool :=
  if maxClients ≤ s.clients.length then (s, false)
  else ({ s with clients := if c ∈ s.clients then s.clients else s.clients ++ [c] }, true)

/-- Go `close(ch)`: panics (`none`) when the channel is already closed,
otherwise marks it closed. -/
def closeChan (ch : ChanState) : Option ChanState :=
  if ch.isClosed then none else some { ch with isClosed := true }

/-- `Server.remove`: under the lock, `delete(s.clients, c)` (a no-op when
absent) and then unconditionally `close(c.send)`; the close panics when
the channel is already closed. -/
def remove (s : ServerState) (c : Nat) : Option ServerState :=
  match closeChan (s.chans c) with
  | none => none
  | some ch => some (setChan { s with clients := s.clients.erase c } c ch)

/-- The `select { case c.send <- msg: default: }` in `Server.broadcast`:
panics on a closed channel, appends when the buffer has room, and
silently drops the message when the buffer is full. -/
def trySend (ch : ChanState) (m : String) : Option ChanState :=
  if ch.isClosed then none
  else if ch.buf.length < chanCap then some { ch with buf := ch.buf ++ [m] }
  else some ch

/-- The loop body of `Server.broadcast` over the membership keys:
for each client other than the sender, attempt the non-blocking send. -/
def broadcastAux (sender : Nat) (m : String) : List Nat → ServerState → Option ServerState
  | [], s => some s
  | c :: rest, s =>
    if c ≠ sender then
      match trySend (s.chans c) m with
      | none => none
      | some ch => broadcastAux sender m rest (setChan s c ch)
    else broadcastAux sender m rest s

/-- `Server.broadcast`: relay the message to everyone except the sender. -/
def broadcast (s : ServerState) (sender : Nat) (m : String) : Option ServerState :=
  broadcastAux sender m s.clients s

/-- The fixed rejection payload sent by `Server.handleWS` on admission
failure. -/
def roomFullMsg : String := "room full (2 clients max)"

/-- Observable actions of the connection handler and the session loops. -/
inductive WSEvent
  | allocClient (c : Nat)
  | sentFrame (c : Nat) (m : String)
  | closedConn (c : Nat)
  | startedWriter (c : Nat)
  | startedReader (c : Nat)
  | removedClient (c : Nat)
deriving DecidableEq, Repr

/-- `Server.handleWS`: on upgrade failure return; otherwise allocate the
`Client` struct (with its fresh capacity-16 channel), attempt admission;
on failure send the room-full frame and close the connection; on
success start the writer goroutine and enter the reader loop. -/
def handleWS (s : ServerState) (c : Nat) (upgradeOk : Bool) : ServerState × List WSEvent :=
  if upgradeOk then
    let s₁ : ServerState := setChan s c initChan
    let r := add s₁ c
    if r.2 then
      (r.1, [WSEvent.allocClient c, WSEvent.startedWriter c, WSEvent.startedReader c])
    else
      (r.1, [WSEvent.allocClient c, WSEvent.sentFrame c roomFullMsg, WSEvent.closedConn c])
  else (s, [])

/-- One observation of the blocking `ReadMessage` in `Server.reader`:
either one message or an error. -/
inductive ReadEvent
  | msg (m : String)
  | err
deriving DecidableEq, Repr

/-- `Server.reader`: repeatedly read; on a message, `broadcast`; on the
first read error the deferred teardown runs — `remove(c)` (which closes
the send channel) and then `c.conn.Close()` — and the loop exits.
`none` models a run-time panic. -/
def reader : ServerState → Nat → List ReadEvent → Option (ServerState × List WSEvent)
  | s, _, [] => some (s, [])
  | s, c, ReadEvent.msg m :: rest =>
    match broadcast s c m with
    | none => none
    | some s₁ => reader s₁ c rest
  | s, c, ReadEvent.err :: _ =>
    match remove s c with
    | none => none
    | some s₁ => some (s₁, [WSEvent.removedClient c, WSEvent.closedConn c])

/-- `Server.writer`'s loop over the currently buffered messages: the
`i`-th `WriteMessage` succeeds when `wOk i` is `true`; on a write error
the loop returns at once, leaving the rest of the buffer.  The second
component records whether the loop exited because of a write error. -/
def writerLoop : List String → (Nat → Bool) → Nat → List String × Bool
  | [], _, _ => ([], false)
  | _ :: rest, wOk, i => if wOk i then writerLoop rest wOk (i + 1) else (rest, true)

/-- The effect of running `Server.writer` for client `c` on the server
state: only `c`'s channel buffer is consumed; nothing else is touched —
the writer never removes `c` from the registry, never closes the
channel, and there is no signal path to the reader loop. -/
def writerOnServer (s : ServerState) (c : Nat) (wOk : Nat → Bool) : ServerState :=
  let ch := s.chans c
  setChan s c ({ ch with buf := (writerLoop ch.buf wOk 0).1 })

/-- Registry operations, for reasoning about arbitrary operation
sequences against `Server.add` / `Server.remove`. -/
inductive Op
  | add (c : Nat)
  | remove (c : Nat)
deriving DecidableEq, Repr

/-- Apply one registry operation; `none` is a run-time panic. -/
def applyOp (s : ServerState) : Op → Option ServerState
  | Op.add c => some (add s c).1
  | Op.remove c => remove s c

/-- Run a sequence of registry operations. -/
def runOps : ServerState → List Op → Option ServerState
  | s, [] => some s
  | s, op :: ops =>
    match applyOp s op with
    | none => none
    | some s₁ => runOps s₁ ops

/-- An incoming HTTP request, as far as the upgrader's origin check can
see it; the origin header is the field the check could have consulted. -/
structure HTTPRequest where
  origin : Option String
  path : String

/-- The upgrader's origin check:
`CheckOrigin: func(r *http.Request) bool { return true }`. -/
def checkOrigin (r : HTTPRequest) : Bool := true

/-- One step of the single-producer/single-consumer interaction on one
recipient's channel: either the sender's inbound loop broadcasts one
message towards this recipient (the `select` non-blocking send of
`Server.broadcast`, via `trySend`), or the recipient's `Server.writer`
loop consumes the next buffered message and writes it out. -/
inductive RWStep
  | send (m : String)
  | deliver
deriving DecidableEq, Repr

/-- Effect of one `RWStep` on (recipient channel, messages already
consumed by the recipient's outbound loop). -/
def rwStep : ChanState × List String → RWStep → ChanState × List String
  | (ch, out), RWStep.send m =>
    match trySend ch m with
    | some ch' => (ch', out)
    | none => (ch, out)
  | (ch, out), RWStep.deliver =>
    match ch.buf with
    | [] => (ch, out)
    | m :: rest => ({ ch with buf := rest }, out ++ [m])

/-- Run an interleaving of broadcast sends and writer deliveries. -/
def runRW : ChanState × List String → List RWStep → ChanState × List String
  | st, [] => st
  | st, e :: es => runRW (rwStep st e) es

/-- The messages the sender broadcast, in the sender's order. -/
def sentOf : List RWStep → List String
  | [] => []
  | RWStep.send m :: es => m :: sentOf es
  | RWStep.deliver :: es => sentOf es

/-! ## Demo states for witnesses -/

/-- Two admitted clients `0` and `1`, all channels fresh. -/
def demoTwo : ServerState := { clients := [0, 1], chans := fun _ => initChan }

/-- Two admitted clients whose channels are open and completely full
(16 buffered messages each). -/
def demoFull16 : ServerState :=
  { clients := [0, 1], chans := fun _ => ChanState.mk (List.replicate 16 "x") false }

/-- Two admitted clients with one pending outbound message each. -/
def demoMsg : ServerState :=
  { clients := [0, 1], chans := fun _ => ChanState.mk ["f1"] false }

/-- A write oracle under which every `WriteMessage` fails. -/
def wFail : Nat → Bool := fun _ => false

/-! ## Helper lemmas (shared across claims) -/

/-- Characterisation of the `Server.broadcast` loop over an arbitrary
duplicate-free key list whose channels are all open: it never panics,
leaves membership untouched, appends the message exactly to the
channels of the listed clients other than the sender whose buffers have
room, and leaves every other channel unchanged. -/
lemma broadcastAux_spec (sender : Nat) (m : String) :
    ∀ (l : List Nat) (s : ServerState), l.Nodup →
      (∀ c ∈ l, (s.chans c).isClosed = false) →
      ∃ s', broadcastAux sender m l s = some s' ∧ s'.clients = s.clients ∧
        ∀ b, s'.chans b =
          if b ∈ l ∧ b ≠ sender ∧ (s.chans b).buf.length < chanCap
          then ChanState.mk ((s.chans b).buf ++ [m]) false
          else s.chans b := by
  intro l
  induction l with
  | nil =>
    intro s _ _
    refine ⟨s, rfl, rfl, fun b => ?_⟩
    simp
  | cons c rest ih =>
    intro s hnd hopen
    have hcopen : (s.chans c).isClosed = false := hopen c (List.mem_cons_self c rest)
    have hcnot : c ∉ rest := (List.nodup_cons.mp hnd).1
    have hndr : rest.Nodup := (List.nodup_cons.mp hnd).2
    by_cases hcs : c = sender
    · subst hcs
      obtain ⟨s', h1, h2, h3⟩ := ih s hndr (fun d hd => hopen d (List.mem_cons_of_mem _ hd))
      refine ⟨s', by simpa [broadcastAux] using h1, h2, ?_⟩
      intro b
      rw [h3 b]
      by_cases hbc : b = c
      · subst hbc
        simp [hcnot]
      · simp [List.mem_cons, hbc]
    · by_cases hlen : (s.chans c).buf.length < chanCap
      · have hstep : broadcastAux sender m (c :: rest) s
            = broadcastAux sender m rest
                (setChan s c (ChanState.mk ((s.chans c).buf ++ [m]) false)) := by
          simp [broadcastAux, hcs, trySend, hcopen, hlen]
        have hopen₁ : ∀ d ∈ rest,
            ((setChan s c (ChanState.mk ((s.chans c).buf ++ [m]) false)).chans d).isClosed
              = false := by
          intro d hd
          have hdc : d ≠ c := fun h => hcnot (h ▸ hd)
          have hch : (setChan s c (ChanState.mk ((s.chans c).buf ++ [m]) false)).chans d
              = s.chans d := Function.update_noteq hdc _ _
          rw [hch]
          exact hopen d (List.mem_cons_of_mem _ hd)
        obtain ⟨s', h1, h2, h3⟩ := ih
          (setChan s c (ChanState.mk ((s.chans c).buf ++ [m]) false)) hndr hopen₁
        refine ⟨s', by rw [hstep]; exact h1, h2, ?_⟩
        intro b
        rw [h3 b]
        by_cases hbc : b = c
        · subst hbc
          simp [hcnot, hcs, hlen, setChan, Function.update_same]
        · have hupd : (setChan s c (ChanState.mk ((s.chans c).buf ++ [m]) false)).chans b
              = s.chans b := Function.update_noteq hbc _ _
          simp [hupd, List.mem_cons, hbc]
      · have hstep : broadcastAux sender m (c :: rest) s = broadcastAux sender m rest s := by
          have heq : setChan s c (s.chans c) = s := by
            simp [setChan, Function.update_eq_self]
          simp [broadcastAux, hcs, trySend, hcopen, hlen, heq]
        obtain ⟨s', h1, h2, h3⟩ := ih s hndr (fun d hd => hopen d (List.mem_cons_of_mem _ hd))
        refine ⟨s', by rw [hstep]; exact h1, h2, ?_⟩
        intro b
        rw [h3 b]
        by_cases hbc : b = c
        · subst hbc
          simp [hcnot, hlen]
        · simp [List.mem_cons, hbc]

/-- The `broadcastAux_spec` characterisation lifted to `broadcast`. -/
lemma broadcast_spec_strong (s : ServerState) (sender : Nat) (m : String)
    (hnd : s.clients.Nodup) (hopen : ∀ c ∈ s.clients, (s.chans c).isClosed = false) :
    ∃ s', broadcast s sender m = some s' ∧ s'.clients = s.clients ∧
      ∀ b, s'.chans b =
        if b ∈ s.clients ∧ b ≠ sender ∧ (s.chans b).buf.length < chanCap
        then ChanState.mk ((s.chans b).buf ++ [m]) false
        else s.chans b :=
  broadcastAux_spec sender m s.clients s hnd hopen

/-- One registry operation cannot push membership above the cap. -/
lemma applyOp_length {s s' : ServerState} (op : Op) (h : applyOp s op = some s')
    (hle : s.clients.length ≤ maxClients) : s'.clients.length ≤ maxClients := by
  cases op with
  | add c =>
    simp only [applyOp, Option.some.injEq] at h
    subst h
    by_cases hcap : maxClients ≤ s.clients.length
    · simpa [add, hcap] using hle
    · push_neg at hcap
      by_cases hmem : c ∈ s.clients
      · simpa [add, hcap.not_le, hmem] using hle
      · simp [add, hcap.not_le, hmem]
        omega
  | remove c =>
    simp only [applyOp, remove] at h
    cases hcl : closeChan (s.chans c) with
    | none => rw [hcl] at h; exact absurd h (by simp)
    | some ch =>
      rw [hcl] at h
      simp only [Option.some.injEq] at h
      subst h
      calc (s.clients.erase c).length ≤ s.clients.length :=
            (s.clients.erase_sublist c).length_le
        _ ≤ maxClients := hle

/-- The membership cap is an invariant of arbitrary operation runs. -/
lemma runOps_length : ∀ (ops : List Op) (s s' : ServerState),
    runOps s ops = some s' → s.clients.length ≤ maxClients →
    s'.clients.length ≤ maxClients := by
  intro ops
  induction ops with
  | nil =>
    intro s s' h hle
    simp only [runOps, Option.some.injEq] at h
    exact h ▸ hle
  | cons op ops ih =>
    intro s s' h hle
    simp only [runOps] at h
    cases hstep : applyOp s op with
    | none => rw [hstep] at h; exact absurd h (by simp)
    | some s₁ =>
      rw [hstep] at h
      exact ih s₁ s' h (applyOp_length op hstep hle)

/-- `broadcast` never panics on open member channels, and it changes
neither membership nor any channel's closed flag. -/
lemma broadcast_preserves (s : ServerState) (sender : Nat) (m : String)
    (hnd : s.clients.Nodup) (hopen : ∀ c ∈ s.clients, (s.chans c).isClosed = false) :
    ∃ s₁, broadcast s sender m = some s₁ ∧ s₁.clients = s.clients ∧
      ∀ d, (s₁.chans d).isClosed = (s.chans d).isClosed := by
  obtain ⟨s₁, h1, h2, h3⟩ := broadcast_spec_strong s sender m hnd hopen
  refine ⟨s₁, h1, h2, fun d => ?_⟩
  rw [h3 d]
  by_cases hcond : d ∈ s.clients ∧ d ≠ sender ∧ (s.chans d).buf.length < chanCap
  · rw [if_pos hcond]
    simpa using (hopen d hcond.1).symm
  · rw [if_neg hcond]

/-- Invariant of the producer/consumer interaction: what the outbound
loop has consumed, followed by what is still buffered, is always an
in-order subsequence of what was already accounted for plus the
messages sent from here on. -/
lemma runRW_sublist_aux : ∀ (es : List RWStep) (ch : ChanState) (out : List String),
    ch.isClosed = false →
    ((runRW (ch, out) es).2 ++ (runRW (ch, out) es).1.buf).Sublist (out ++ ch.buf ++ sentOf es)
    ∧ (runRW (ch, out) es).1.isClosed = false := by
  intro es
  induction es with
  | nil =>
    intro ch out hopen
    constructor
    · simp [runRW, sentOf]
    · simpa [runRW] using hopen
  | cons e es ih =>
    intro ch out hopen
    cases e with
    | send m =>
      by_cases hlen : ch.buf.length < chanCap
      · have hstep : rwStep (ch, out) (RWStep.send m)
            = (ChanState.mk (ch.buf ++ [m]) false, out) := by
          simp [rwStep, trySend, hopen, hlen]
        obtain ⟨ih1, ih2⟩ := ih (ChanState.mk (ch.buf ++ [m]) false) out rfl
        constructor
        · simpa [runRW, hstep, sentOf, List.append_assoc] using ih1
        · simpa [runRW, hstep] using ih2
      · have hstep : rwStep (ch, out) (RWStep.send m) = (ch, out) := by
          simp [rwStep, trySend, hopen, hlen]
        obtain ⟨ih1, ih2⟩ := ih ch out hopen
        constructor
        · have ih1' : ((runRW (ch, out) (RWStep.send m :: es)).2
              ++ (runRW (ch, out) (RWStep.send m :: es)).1.buf).Sublist
                (out ++ ch.buf ++ sentOf es) := by
            simpa [runRW, hstep] using ih1
          have hsub : (out ++ ch.buf ++ sentOf es).Sublist
              (out ++ ch.buf ++ (m :: sentOf es)) :=
            List.Sublist.append_left (List.sublist_cons_self m (sentOf es)) (out ++ ch.buf)
          simpa [sentOf] using ih1'.trans hsub
        · simpa [runRW, hstep] using ih2
    | deliver =>
      cases hbuf : ch.buf with
      | nil =>
        have hstep : rwStep (ch, out) RWStep.deliver = (ch, out) := by
          simp [rwStep, hbuf]
        obtain ⟨ih1, ih2⟩ := ih ch out hopen
        constructor
        · simpa [runRW, hstep, sentOf, hbuf] using ih1
        · simpa [runRW, hstep] using ih2
      | cons m rest =>
        have hstep : rwStep (ch, out) RWStep.deliver
            = (ChanState.mk rest false, out ++ [m]) := by
          simp [rwStep, hbuf, hopen]
        obtain ⟨ih1, ih2⟩ := ih (ChanState.mk rest false) (out ++ [m]) rfl
        constructor
        · simpa [runRW, hstep, sentOf, hbuf, List.append_assoc] using ih1
        · simpa [runRW, hstep] using ih2

/-! ## Claims -/

/-- C1: for every call to `broadcast(sender, msg)` and every session `B`,
`msg` is enqueued onto `B`'s outbound queue if and only if `B` is in the
registry's membership set, `B` is not the sender, and `B`'s queue holds
fewer than 16 pending messages; when `B`'s queue is full the message is
silently discarded with no error and no change to `B`'s queue, and the
sender's own queue is never enqueued.  (The hypotheses — duplicate-free
membership and open member channels — hold in every reachable state.) -/
theorem broadcast_enqueue_iff (s : ServerState) (sender : Nat) (m : String)
    (hnd : s.clients.Nodup) (hopen : ∀ c ∈ s.clients, (s.chans c).isClosed = false) :
    ∃ s', broadcast s sender m = some s' ∧ s'.clients = s.clients ∧
      ∀ b, s'.chans b =
        if b ∈ s.clients ∧ b ≠ sender ∧ (s.chans b).buf.length < chanCap
        then ChanState.mk ((s.chans b).buf ++ [m]) false
        else s.chans b :=
  broadcast_spec_strong s sender m hnd hopen

/-- Witness for C1 at a concrete two-client state. -/
theorem broadcast_enqueue_iff_witness :
    (demoTwo.clients.Nodup ∧ ∀ c ∈ demoTwo.clients, (demoTwo.chans c).isClosed = false) ∧
    ∃ s', broadcast demoTwo 0 "frame-1" = some s' ∧ s'.clients = demoTwo.clients ∧
      ∀ b, s'.chans b =
        if b ∈ demoTwo.clients ∧ b ≠ 0 ∧ (demoTwo.chans b).buf.length < chanCap
        then ChanState.mk ((demoTwo.chans b).buf ++ ["frame-1"]) false
        else demoTwo.chans b :=
  ⟨⟨by decide, by decide⟩, broadcast_enqueue_iff demoTwo 0 "frame-1" (by decide) (by decide)⟩

/-- C3: a session's outbound queue is bounded at capacity 16: when `b`'s
queue already holds 16 undelivered messages, a further broadcast
directed at `b` drops the new message and leaves `b`'s queue holding
exactly the same 16 messages in the same order; in particular the
dropped message is not appended. -/
theorem broadcast_full_queue_drops (s : ServerState) (sender b : Nat) (m : String)
    (hnd : s.clients.Nodup) (hopen : ∀ c ∈ s.clients, (s.chans c).isClosed = false)
    (hb : b ∈ s.clients) (hbs : b ≠ sender)
    (hfull : (s.chans b).buf.length = chanCap) :
    ∃ s', broadcast s sender m = some s' ∧ s'.chans b = s.chans b ∧
      (s'.chans b).buf = (s.chans b).buf ∧ (s'.chans b).buf.length = chanCap := by
  obtain ⟨s', h1, _, h3⟩ := broadcast_spec_strong s sender m hnd hopen
  have hbeq : s'.chans b = s.chans b := by
    rw [h3 b, hfull]
    simp
  exact ⟨s', h1, hbeq, by rw [hbeq], by rw [hbeq, hfull]⟩

/-- Witness for C3 at a concrete state whose queues are full. -/
theorem broadcast_full_queue_drops_witness :
    (demoFull16.clients.Nodup ∧ 1 ∈ demoFull16.clients
      ∧ (demoFull16.chans 1).buf.length = chanCap) ∧
    ∃ s', broadcast demoFull16 0 "extra" = some s' ∧ s'.chans 1 = demoFull16.chans 1 ∧
      (s'.chans 1).buf = (demoFull16.chans 1).buf ∧ (s'.chans 1).buf.length = chanCap :=
  ⟨⟨by decide, by decide, by decide⟩,
    broadcast_full_queue_drops demoFull16 0 1 "extra" (by decide) (by decide)
      (by decide) (by decide) (by decide)⟩

/-- C2: for every sequence of add and remove operations on the registry
starting from `NewServer()`, the cardinality of the membership set never
exceeds 2; in particular `add` refuses to insert (and leaves membership
unchanged) whenever the set already has 2 members. -/
theorem registry_card_le_two (ops : List Op) (s' : ServerState)
    (h : runOps initialState ops = some s') :
    s'.clients.length ≤ maxClients ∧
    ∀ c, maxClients ≤ s'.clients.length →
      (add s' c).2 = false ∧ (add s' c).1.clients = s'.clients := by
  refine ⟨runOps_length ops initialState s' h (by decide), ?_⟩
  intro c hcap
  constructor <;> simp [add, hcap]

/-- Witness for C2: three connection attempts; the third is refused and
membership stays at two. -/
theorem registry_card_le_two_witness :
    runOps initialState [Op.add 0, Op.add 1, Op.add 2] = some demoTwo ∧
    demoTwo.clients.length ≤ maxClients :=
  ⟨rfl, (registry_card_le_two [Op.add 0, Op.add 1, Op.add 2] demoTwo rfl).1⟩

/-- C7: `add` returns true (and inserts the client) exactly when current
membership is strictly below 2; when membership is 2 or more it returns
false and the whole server state — membership included — is unchanged. -/
theorem add_admission_spec (s : ServerState) (c : Nat) :
    ((add s c).2 = true ↔ s.clients.length < maxClients) ∧
    (s.clients.length < maxClients → c ∈ (add s c).1.clients) ∧
    (maxClients ≤ s.clients.length → (add s c).1 = s) := by
  refine ⟨?_, ?_, ?_⟩
  · constructor
    · intro h
      by_contra hcap
      push_neg at hcap
      simp [add, hcap] at h
    · intro h
      simp [add, h.not_le]
  · intro h
    by_cases hmem : c ∈ s.clients
    · simp [add, h.not_le, hmem]
    · simp [add, h.not_le, hmem]
  · intro h
    simp [add, h]

/-- Witness for C7: success below the cap, refusal at the cap. -/
theorem add_admission_spec_witness :
    (initialState.clients.length < maxClients ∧ 0 ∈ (add initialState 0).1.clients) ∧
    (maxClients ≤ demoTwo.clients.length ∧ (add demoTwo 7).1 = demoTwo
      ∧ ((add demoTwo 7).2 = true ↔ demoTwo.clients.length < maxClients)) :=
  ⟨⟨by decide, (add_admission_spec initialState 0).2.1 (by decide)⟩,
    ⟨by decide, (add_admission_spec demoTwo 7).2.2 (by decide),
      (add_admission_spec demoTwo 7).1⟩⟩

/-- C4 (code bug): `Server.remove` is not idempotent.  A first call on an
admitted client succeeds, but a second call on the same client reaches
`close(c.send)` with an already-closed channel, which is a run-time
panic in Go (modelled as `none`).  The spec requires the second call to
be a harmless no-op. -/
theorem remove_double_close_panics :
    ∃ s₁, remove demoTwo 0 = some s₁ ∧ remove s₁ 0 = none :=
  ⟨_, rfl, rfl⟩

/-- C5 (counterexample part): on a rejected connection attempt (registry
already at capacity) the handler nevertheless allocates the `Client`
struct — `client := &Client{...}` runs before the admission check — so
"never creates a Peer Session object" is false as stated. -/
theorem handleWS_reject_allocates_client :
    maxClients ≤ demoTwo.clients.length ∧
    WSEvent.allocClient 2 ∈ (handleWS demoTwo 2 true).2 := by decide

/-- C5 (amended): for every connection whose admission is denied, the
handler sends exactly one text frame with the fixed room-full string and
then closes the connection; the rejected connection is never added to
membership and neither of the session loops is started.  (The `Client`
struct and its queue are allocated before the admission check and
discarded on rejection.) -/
theorem handleWS_reject_spec (s : ServerState) (c : Nat)
    (hcap : maxClients ≤ s.clients.length) :
    (handleWS s c true).1.clients = s.clients ∧
    (handleWS s c true).2
      = [WSEvent.allocClient c, WSEvent.sentFrame c roomFullMsg, WSEvent.closedConn c] ∧
    WSEvent.startedWriter c ∉ (handleWS s c true).2 ∧
    WSEvent.startedReader c ∉ (handleWS s c true).2 := by
  have hrej : (add (setChan s c initChan) c).2 = false := by
    simp [add, setChan, hcap]
  refine ⟨?_, ?_, ?_, ?_⟩ <;>
    simp [handleWS, setChan, add, hcap, roomFullMsg]

/-- Witness for C5's amended theorem at a concrete full registry. -/
theorem handleWS_reject_spec_witness :
    maxClients ≤ demoTwo.clients.length ∧
    (handleWS demoTwo 2 true).1.clients = demoTwo.clients ∧
    (handleWS demoTwo 2 true).2
      = [WSEvent.allocClient 2, WSEvent.sentFrame 2 roomFullMsg, WSEvent.closedConn 2] :=
  ⟨by decide, (handleWS_reject_spec demoTwo 2 (by decide)).1,
    (handleWS_reject_spec demoTwo 2 (by decide)).2.1⟩

/-- C6: an outbound-loop write failure terminates only that loop.  After
`Server.writer` exits on a write error the session is still in the
registry's membership set, its outbound queue is not closed, and no
other part of the state changed — in particular nothing the inbound
loop observes signals it to stop (the only state the writer touches is
its own channel's buffer). -/
theorem writer_error_exit_confined (s : ServerState) (c : Nat) (wOk : Nat → Bool)
    (hc : c ∈ s.clients) (hopen : (s.chans c).isClosed = false)
    (herr : (writerLoop (s.chans c).buf wOk 0).2 = true) :
    c ∈ (writerOnServer s c wOk).clients ∧
    (writerOnServer s c wOk).clients = s.clients ∧
    ((writerOnServer s c wOk).chans c).isClosed = false ∧
    ∀ d, d ≠ c → (writerOnServer s c wOk).chans d = s.chans d := by
  refine ⟨hc, rfl, ?_, ?_⟩
  · simp [writerOnServer, setChan, Function.update_same, hopen]
  · intro d hdc
    simp [writerOnServer, setChan, Function.update_noteq hdc]

/-- Witness for C6: a failing write leaves membership and the open
queue intact. -/
theorem writer_error_exit_confined_witness :
    (0 ∈ demoMsg.clients ∧ (demoMsg.chans 0).isClosed = false
      ∧ (writerLoop (demoMsg.chans 0).buf wFail 0).2 = true) ∧
    0 ∈ (writerOnServer demoMsg 0 wFail).clients ∧
    ((writerOnServer demoMsg 0 wFail).chans 0).isClosed = false :=
  ⟨⟨by decide, by decide, by decide⟩,
    (writer_error_exit_confined demoMsg 0 wFail (by decide) (by decide) (by decide)).1,
    (writer_error_exit_confined demoMsg 0 wFail (by decide) (by decide) (by decide)).2.2.1⟩

/-- C8: a read error in the inbound loop causes exactly the teardown
sequence remove-then-close-connection and the loop exits with no panic;
the session is gone from membership, its queue is closed, every other
session is still a member, and no other session's channel is closed by
the teardown. -/
theorem reader_error_teardown (s : ServerState) (c : Nat) (msgs : List String)
    (rest : List ReadEvent) (hnd : s.clients.Nodup)
    (hopen : ∀ d ∈ s.clients, (s.chans d).isClosed = false) (hc : c ∈ s.clients) :
    ∃ s', reader s c (msgs.map ReadEvent.msg ++ ReadEvent.err :: rest)
        = some (s', [WSEvent.removedClient c, WSEvent.closedConn c]) ∧
      c ∉ s'.clients ∧ (s'.chans c).isClosed = true ∧
      (∀ d, d ∈ s'.clients ↔ d ∈ s.clients ∧ d ≠ c) ∧
      (∀ d, d ≠ c → (s'.chans d).isClosed = (s.chans d).isClosed) := by
  induction msgs generalizing s with
  | nil =>
    have hcopen : (s.chans c).isClosed = false := hopen c hc
    have hrm : remove s c
        = some (setChan { s with clients := s.clients.erase c } c
            (ChanState.mk (s.chans c).buf true)) := by
      simp [remove, closeChan, hcopen]
    refine ⟨setChan { s with clients := s.clients.erase c } c
        (ChanState.mk (s.chans c).buf true), ?_, ?_, ?_, ?_, ?_⟩
    · simp [reader, hrm]
    · exact fun hmem => hnd.not_mem_erase hmem
    · simp [setChan, Function.update_same]
    · intro d
      constructor
      · intro hd
        have hd' : d ∈ s.clients.erase c := hd
        rw [hnd.mem_erase_iff] at hd'
        exact ⟨hd'.2, hd'.1⟩
      · intro ⟨hd1, hd2⟩
        show d ∈ s.clients.erase c
        rw [hnd.mem_erase_iff]
        exact ⟨hd2, hd1⟩
    · intro d hdc
      simp [setChan, Function.update_noteq hdc]
  | cons m msgs ih =>
    obtain ⟨s₁, hb1, hb2, hb3⟩ := broadcast_preserves s c m hnd hopen
    have hnd₁ : s₁.clients.Nodup := hb2 ▸ hnd
    have hopen₁ : ∀ d ∈ s₁.clients, (s₁.chans d).isClosed = false := by
      intro d hd
      rw [hb3 d]
      exact hopen d (hb2 ▸ hd)
    obtain ⟨s', h1, h2, h3, h4, h5⟩ := ih s₁ hnd₁ hopen₁ (hb2 ▸ hc)
    refine ⟨s', ?_, h2, h3, ?_, ?_⟩
    · show reader s c (ReadEvent.msg m :: (msgs.map ReadEvent.msg ++ ReadEvent.err :: rest))
        = some (s', [WSEvent.removedClient c, WSEvent.closedConn c])
      simp only [reader, hb1]
      exact h1
    · intro d
      rw [h4 d, hb2]
    · intro d hdc
      rw [h5 d hdc, hb3 d]

/-- Witness for C8: client 0 relays one frame, then its read fails; the
teardown removes it, closes its queue, and client 1 is untouched. -/
theorem reader_error_teardown_witness :
    (demoTwo.clients.Nodup ∧ 0 ∈ demoTwo.clients) ∧
    ∃ s', reader demoTwo 0 [ReadEvent.msg "frame-1", ReadEvent.err]
        = some (s', [WSEvent.removedClient 0, WSEvent.closedConn 0]) ∧
      0 ∉ s'.clients ∧ (s'.chans 0).isClosed = true := by
  refine ⟨⟨by decide, by decide⟩, ?_⟩
  obtain ⟨s', h1, h2, h3, _, _⟩ :=
    reader_error_teardown demoTwo 0 ["frame-1"] [] (by decide) (by decide) (by decide)
  exact ⟨s', h1, h2, h3⟩

/-- C9: over any interleaving of the sender's broadcasts towards a
recipient with the recipient's outbound-loop deliveries, the messages
that reach the outbound loop followed by those still queued form an
in-order subsequence of the sender's sequence — drops on a full queue
lose messages, but nothing is reordered, duplicated, or retried. -/
theorem inorder_subsequence_delivery (es : List RWStep) :
    ((runRW (initChan, []) es).2 ++ (runRW (initChan, []) es).1.buf).Sublist (sentOf es)
    ∧ ((runRW (initChan, []) es).2).Sublist (sentOf es) := by
  have h := (runRW_sublist_aux es initChan [] rfl).1
  simp only [initChan, List.nil_append] at h
  exact ⟨h, (List.sublist_append_left _ _).trans h⟩

/-- C10: the upgrader's origin check accepts every request, whatever its
origin header. -/
theorem checkOrigin_accepts_all (r : HTTPRequest) : checkOrigin r = true := rfl

end AsciiChat
